import Mathlib

/-!
Verification of the jate terminal text editor (src/jate.c) against its
natural-language specification.

The editor state (the C global `struct editorConfig E`) is embedded as the
structure `EState` below.  Rows (`erow`) are embedded as `List Char` holding
the raw character buffer (`chars`/`size`); the derived `render`/`rsize`
fields are a pure function of `chars` recomputed by `editorUpdateRow` on
every mutation, and are modelled by the standalone function `renderRow`.
C `int` indices are modelled as `Int` where the sign matters for a bounds
check (the `at` argument of `editorInsertRow` / `editorDelRow`) and as `Nat`
for the cursor fields, which the program keeps non-negative.  Fallible
memory accesses (reads of `E.row[i]` outside the live array, which are
undefined behaviour in C) are modelled by `Option`: `none` means the C
program performed an out-of-range access.  Terminal and file I/O are
modelled by explicit oracles (`SaveEnv`).
-/

/-! ### Key codes (enum editorKey and CTRL_KEY)

`CTRL_KEY(k)` is `k & 0x1f`, so Ctrl-Q = 17, Ctrl-S = 19, Ctrl-H = 8,
Ctrl-L = 12.  The remaining codes are the values of `enum editorKey`. -/

def BACKSPACE : Int := 127

def ARROW_LEFT : Int := 1000

def ARROW_RIGHT : Int := 1001

def ARROW_UP : Int := 1002

def ARROW_DOWN : Int := 1003

def DEL_KEY : Int := 1004

def HOME_KEY : Int := 1005

def END_KEY : Int := 1006

def PAGE_UP : Int := 1007

def PAGE_DOWN : Int := 1008

def CTRL_Q : Int := 17

def CTRL_S : Int := 19

def CTRL_H : Int := 8

def CTRL_L : Int := 12

def ESC : Int := 27

def CARRIAGE_RETURN : Int := 13

/-- JATE_TABSTOP -/
def JATE_TABSTOP : Nat := 8

/-- JATE_QUIT_TIMES -/
def JATE_QUIT_TIMES : Nat := 3

/-! ### List helpers mirroring the C memmove-based array surgery -/

/-- Insertion of an element at index `n` (the effect of the
`memmove(&E.row[at+1], &E.row[at], ...)` shift in `editorInsertRow`,
and of the `memmove` in `editorRowInsertChar`).  Only used at `n ≤ length`
(the C code bounds-checks or clamps first). -/
def insertAt : Nat → α → List α → List α
  | 0, x, l => x :: l
  | _ + 1, _, [] => []
  | n + 1, x, a :: l => a :: insertAt n x l

/-- Removal of the element at index `n` (the effect of the
`memmove(&E.row[at], &E.row[at+1], ...)` shift in `editorDelRow`, and of
the `memmove` in `editorRowDelChar`).  Only used at `n < length`. -/
def eraseAt : Nat → List α → List α
  | _, [] => []
  | 0, _ :: l => l
  | n + 1, a :: l => a :: eraseAt n l

/-! ### Editor state (struct editorConfig) -/

/-- The global `struct editorConfig E`.  `numrows` is `rows.length`.
`dirty` is the unsaved-change counter; `statusmsg` the status-bar
message buffer. -/
structure EState where
  rows : List (List Char)
  cx : Nat
  cy : Nat
  rowoff : Nat
  coloff : Nat
  screenrows : Nat
  screencols : Nat
  dirty : Nat
  filename : Option String
  statusmsg : String
deriving DecidableEq, Repr

/-- editorSetStatusMessage: formats into `E.statusmsg` (the timestamp field
is not modelled; no claim depends on the message TTL). -/
def setStatus (s : EState) (msg : String) : EState :=
  { s with statusmsg := msg }

/-! ### Row rendering (editorUpdateRow, editorRowCxToRx) -/

/-- The tab counting loop of editorUpdateRow (`for j: if chars[j]=='\t') tabs++`). -/
def countTabs (row : List Char) : Nat :=
  (row.filter fun c => c = '\t').length

/-- The character-emission loop of editorUpdateRow: at rendered column `idx`,
a tab emits one space and then spaces until `idx % JATE_TABSTOP == 0`
(i.e. `8 - idx % 8` spaces in total); any other character is copied 1:1. -/
def renderRowAux : List Char → Nat → List Char
  | [], _ => []
  | c :: cs, idx =>
    if c = '\t' then
      List.replicate (JATE_TABSTOP - idx % JATE_TABSTOP) ' ' ++
        renderRowAux cs (idx + (JATE_TABSTOP - idx % JATE_TABSTOP))
    else
      c :: renderRowAux cs (idx + 1)

/-- The `render` sequence produced by editorUpdateRow's write loop for a row. -/
def renderRow (row : List Char) : List Char :=
  renderRowAux row 0

/-- The size passed to `malloc` by editorUpdateRow:
`row->size + tabs * (JATE_TABSTOP - 1) + 1`.  The local `int tabs` is NEVER
initialised in the C source before the `tabs++` counting loop, so the value
it starts from is indeterminate; `tabsInit` models that initial garbage
value (the intended code, per the comment in the source, is `tabsInit = 0`). -/
def renderMallocSize (row : List Char) (tabsInit : Int) : Int :=
  (row.length : Int) + (tabsInit + (countTabs row : Int)) * (JATE_TABSTOP - 1) + 1

/-- The accumulator loop of editorRowCxToRx:
`if chars[j]=='\t') rx += (JATE_TABSTOP-1) - rx % JATE_TABSTOP; rx++`. -/
def cxToRxAux : List Char → Nat → Nat
  | [], rx => rx
  | c :: cs, rx =>
    cxToRxAux cs (if c = '\t' then rx + ((JATE_TABSTOP - 1) - rx % JATE_TABSTOP) + 1 else rx + 1)

/-- editorRowCxToRx: the loop runs `j` over `[0, cx)` reading `chars[j]`
(callers always pass `cx ≤ size`). -/
def editorRowCxToRx (row : List Char) (cx : Nat) : Nat :=
  cxToRxAux (row.take cx) 0

/-! ### Structural row operations (editorInsertRow, editorDelRow) -/

/-- editorInsertRow: bounds-check `at < 0 || at > E.numrows` then shift and
insert the new row, bump `numrows` and `dirty`.  (`editorUpdateRow` keeps
`render` a function of `chars`; `render` is derived in this model.) -/
def editorInsertRowS (s : EState) (a : Int) (text : List Char) : EState :=
  if a < 0 ∨ a > (s.rows.length : Int) then s
  else { s with rows := insertAt a.toNat text s.rows, dirty := s.dirty + 1 }

/-- editorDelRow: bounds-check `at < 0 || at > E.numrows` (note: `>`
rather than `>=`, so `at == numrows` is accepted), then
`editorFreeRow(&E.row[at])` and shift.  Reading `E.row[at]` requires
`at < numrows`; `none` models the out-of-range access performed when
`at == numrows`. -/
def editorDelRowS (s : EState) (a : Int) : Option EState :=
  if a < 0 ∨ a > (s.rows.length : Int) then some s
  else
    match s.rows.get? a.toNat with
    | none => none
    | some _ => some { s with rows := eraseAt a.toNat s.rows, dirty := s.dirty + 1 }

/-! ### In-row character operations -/

/-- editorRowInsertChar: clamp `at` into `[0, size]`
(`if (at < 0 || at > row->size) at = row->size`), then shift and insert.
The `Nat` index cannot be negative; the upper clamp is kept. -/
def editorRowInsertChar (row : List Char) (a : Nat) (ch : Char) : List Char :=
  insertAt (if a > row.length then row.length else a) ch row

/-! ### Editor operations (editorInsertChar, editorInsertNewline, editorDelChar) -/

/-- editorInsertChar: if the cursor is on the virtual line past the end
(`E.cy == E.numrows`) first append an empty row, then insert the character
at `(cy, cx)` via editorRowInsertChar (which bumps `dirty`) and advance
`cx`.  The C code stores the `int c` into a `char`, i.e. truncates it to a
byte.  `none` models an out-of-range `E.row[E.cy]` access (`cy > numrows`). -/
def editorInsertChar (s : EState) (c : Int) : Option EState :=
  let s0 := if s.cy = s.rows.length then editorInsertRowS s (s.rows.length : Int) [] else s
  match s0.rows.get? s0.cy with
  | none => none
  | some row =>
    some { s0 with
            rows := s0.rows.set s0.cy (editorRowInsertChar row s0.cx (Char.ofNat (c % 256).toNat)),
            cx := s0.cx + 1,
            dirty := s0.dirty + 1 }

/-- editorInsertNewline: at column 0 insert an empty row before `cy`;
otherwise insert the tail `chars[cx..]` as a new row at `cy + 1` and
truncate the current row to its first `cx` characters.  Either way the
cursor moves to `(cy + 1, 0)`.  `none` models the `E.row[E.cy]` access
when `cy ≥ numrows` (unreachable in the running program, where `cx > 0`
implies `cy < numrows`). -/
def editorInsertNewline (s : EState) : Option EState :=
  if s.cx = 0 then
    some { editorInsertRowS s (s.cy : Int) [] with cy := s.cy + 1, cx := 0 }
  else
    match s.rows.get? s.cy with
    | none => none
    | some row =>
      let s1 := editorInsertRowS s ((s.cy : Int) + 1) (row.drop s.cx)
      some { s1 with rows := s1.rows.set s.cy (row.take s.cx), cy := s.cy + 1, cx := 0 }

/-- editorDelChar: no-op on the virtual last line and at the document
start.  With `cx > 0` delete the character at `cx - 1` in the current row
(editorRowDelChar, inlined: it is itself a no-op when `at ≥ size`, and
bumps `dirty` otherwise) and retreat the cursor.  With `cx == 0` append
the current row to the previous one (editorRowAppendString, bumps
`dirty`), delete the current row (editorDelRow, bumps `dirty`) and move
the cursor to the join point. -/
def editorDelChar (s : EState) : Option EState :=
  if s.cy = s.rows.length then some s
  else if s.cx = 0 ∧ s.cy = 0 then some s
  else
    match s.rows.get? s.cy with
    | none => none
    | some row =>
      if s.cx > 0 then
        if s.cx - 1 ≥ row.length then some { s with cx := s.cx - 1 }
        else
          some { s with
                  rows := s.rows.set s.cy (eraseAt (s.cx - 1) row),
                  cx := s.cx - 1,
                  dirty := s.dirty + 1 }
      else
        match s.rows.get? (s.cy - 1) with
        | none => none
        | some prev =>
          (editorDelRowS
              { s with
                  rows := s.rows.set (s.cy - 1) (prev ++ row),
                  cx := prev.length,
                  dirty := s.dirty + 1 }
              (s.cy : Int)).map fun t => { t with cy := t.cy - 1 }

/-! ### File I/O (editorRowsToString, editorOpen) -/

/-- editorRowsToString: concatenate every row's characters followed by a
single newline (one `memcpy` plus `*p = '\n'` per row). -/
def rowsToString (rows : List (List Char)) : List Char :=
  (rows.map fun r => r ++ ['\n']).join

/-- The length computation of editorRowsToString:
`totlen += E.row[j].size + 1` over all rows. -/
def rowsLen (rows : List (List Char)) : Nat :=
  rows.foldl (fun a r => a + r.length + 1) 0

/-- The `getline` loop of editorOpen: splits the file content into chunks,
each chunk keeping its terminating newline; a final chunk without a
newline (a last line with no end-of-line) is returned as well.  `acc`
holds the current chunk's characters in reverse. -/
def getLinesAux : List Char → List Char → List (List Char)
  | [], acc => if acc.isEmpty then [] else [acc.reverse]
  | c :: cs, acc =>
    if c = '\n' then (acc.reverse ++ ['\n']) :: getLinesAux cs []
    else getLinesAux cs (c :: acc)

/-- The end-of-line stripping loop of editorOpen:
`while (linelen > 0 && (line[linelen-1]=='\n' || line[linelen-1]=='\r')) linelen--`. -/
def stripEol (l : List Char) : List Char :=
  (l.reverse.dropWhile fun c => c = '\n' || c = '\r').reverse

/-- editorOpen's row construction: each `getline` result is stripped of its
trailing newline/carriage-return characters and appended as a row. -/
def editorOpenRows (content : List Char) : List (List Char) :=
  (getLinesAux content []).map stripEol

/-- Whether a character sequence ends with a newline. -/
def endsWithNewline : List Char → Bool
  | [] => false
  | [c] => c = '\n'
  | _ :: c :: cs => endsWithNewline (c :: cs)

/-- Modelled from the spec wording of claim C4 (for comparison with the
code): trailing-newline normalization appends a final newline exactly when
the content is non-empty and does not already end with one. -/
def trailingNewlineNormalize (content : List Char) : List Char :=
  if content.isEmpty then content
  else if endsWithNewline content then content
  else content ++ ['\n']

/-! ### Save flow (editorSave) -/

/-- Oracle for the external effects inside editorSave: the result of the
Save-As prompt, and the success of the `open`, `ftruncate` and `write`
calls. -/
structure SaveEnv where
  promptResult : Option String
  openOk : Bool
  truncOk : Bool
  writeOk : Bool
deriving DecidableEq, Repr

/-- The I/O portion of editorSave, after a filename is bound: serialize
(editorRowsToString), `open`, `ftruncate`, `write`.  Full success clears
`dirty` and reports the byte count; any failure only sets the error
status message (the C text interpolates `strerror(errno)`; the model keeps
the fixed prefix).  The second component is the success flag. -/
def editorSaveGo (s : EState) (env : SaveEnv) : EState × Bool :=
  if env.openOk then
    if env.truncOk then
      if env.writeOk then
        ({ s with dirty := 0,
                  statusmsg := Nat.repr (rowsLen s.rows) ++ " bytes written to disk" }, true)
      else (setStatus s "Cannot save: write error", false)
    else (setStatus s "Cannot save: write error", false)
  else (setStatus s "Cannot save: write error", false)

/-- editorSave: with no filename bound, run the Save-As prompt; a `none`
result aborts with a status message and no I/O.  Otherwise bind the
filename and run the I/O steps.  The C function contains no `die`/`exit`
call: it always returns to the caller, which this total function mirrors. -/
def editorSave (s : EState) (env : SaveEnv) : EState × Bool :=
  match s.filename with
  | none =>
    match env.promptResult with
    | none => (setStatus s "Save aborted", false)
    | some name => editorSaveGo { s with filename := some name } env
  | some _ => editorSaveGo s env

/-! ### Line prompt (editorPrompt) -/

/-- The C `iscntrl` on ASCII: bytes below 32 and byte 127. -/
def iscntrl (c : Int) : Bool :=
  (0 ≤ c ∧ c < 32) ∨ c = 127

/-- Outcome of one iteration of editorPrompt's input loop. -/
inductive PromptStep
  | cancel
  | commit (result : List Char)
  | keep (buf : List Char)
deriving DecidableEq, Repr

/-- One iteration of the editorPrompt input loop, exactly as the if-chain
in the source reads (src/jate.c lines 654-673):
backspace-family keys trim the buffer; then `else if (c != '\x1b')`
frees the buffer and returns NULL; the `c == '\r'` and printable-append
branches sit below that test, and so are reachable only when `c == 0x1b`. -/
def promptStep (buf : List Char) (c : Int) : PromptStep :=
  if c = DEL_KEY ∨ c = CTRL_H ∨ c = BACKSPACE then
    .keep (if buf.length ≠ 0 then buf.dropLast else buf)
  else if c ≠ ESC then .cancel
  else if c = CARRIAGE_RETURN then
    if buf.length ≠ 0 then .commit buf else .keep buf
  else if iscntrl c = false ∧ c < 128 then .keep (buf ++ [Char.ofNat c.toNat])
  else .keep buf

/-! ### Cursor movement (editorMoveCursor) and PageUp/PageDown -/

/-- The line length under the cursor as the C code computes it:
`row = (E.cy >= E.numrows) ? NULL : &E.row[E.cy]; rowlen = row ? row->size : 0`. -/
def rowlenS (s : EState) : Nat :=
  ((s.rows.get? s.cy).getD []).length

/-- The trailing snap-to-end-of-line block of editorMoveCursor:
`if (E.cx > rowlen) E.cx = rowlen`. -/
def clampCx (s : EState) : EState :=
  if s.cx > rowlenS s then { s with cx := rowlenS s } else s

/-- editorMoveCursor: arrow-key motion with line wrapping, followed by the
unconditional clamp of `cx` to the destination line's length.  Any key
other than the four arrows falls through the `switch` and only the final
clamp applies. -/
def editorMoveCursor (s : EState) (key : Int) : EState :=
  let row0 := s.rows.get? s.cy
  let s1 :=
    if key = ARROW_LEFT then
      if s.cx > 0 then { s with cx := s.cx - 1 }
      else if s.cy > 0 then
        { s with cy := s.cy - 1, cx := ((s.rows.get? (s.cy - 1)).getD []).length }
      else s
    else if key = ARROW_RIGHT then
      match row0 with
      | some row =>
        if s.cx < row.length then { s with cx := s.cx + 1 }
        else if s.cx = row.length then { s with cy := s.cy + 1, cx := 0 }
        else s
      | none => s
    else if key = ARROW_UP then
      if s.cy > 0 then { s with cy := s.cy - 1 } else s
    else if key = ARROW_DOWN then
      if s.cy < s.rows.length then { s with cy := s.cy + 1 } else s
    else s
  clampCx s1

/-- The `while (times--) editorMoveCursor(...)` loop of the PageUp/PageDown
case. -/
def moveTimes (key : Int) : Nat → EState → EState
  | 0, s => s
  | n + 1, s => moveTimes key n (editorMoveCursor s key)

/-- The PageUp/PageDown case of editorProcessKeypress as written: relocate
`cy` to the top (PageUp) or bottom (PageDown, clamped to `numrows`) of the
viewport, run `screenrows` vertical moves, and then — because the `case`
has no `break` — fall through into the arrow-key case, calling
editorMoveCursor once more with the PAGE_UP/PAGE_DOWN code itself. -/
def processPage (s : EState) (c : Int) : EState :=
  let s0 :=
    if c = PAGE_UP then { s with cy := s.rowoff }
    else
      let cy1 := s.rowoff + s.screenrows - 1
      { s with cy := if cy1 > s.rows.length then s.rows.length else cy1 }
  let s1 := moveTimes (if c = PAGE_UP then ARROW_UP else ARROW_DOWN) s.screenrows s0
  editorMoveCursor s1 c

/-- Modelled from the spec wording of claim C9 (for comparison with the
code): the viewport relocation plus `screenrows` repeated vertical moves
alone, without the fall-through's extra editorMoveCursor call. -/
def pageJumpSpec (s : EState) (c : Int) : EState :=
  let s0 :=
    if c = PAGE_UP then { s with cy := s.rowoff }
    else
      let cy1 := s.rowoff + s.screenrows - 1
      { s with cy := if cy1 > s.rows.length then s.rows.length else cy1 }
  moveTimes (if c = PAGE_UP then ARROW_UP else ARROW_DOWN) s.screenrows s0

/-! ### Status bar (editorDrawStatusBar) -/

/-- The left status text:
`snprintf(status, 80, "%.20s - %d lines", filename ?: "[No Name]", numrows, dirty ? "(modified)" : "")`.
The format string contains only the `%.20s` and `%d` conversions, so the
third argument — the modified marker — has no matching conversion and is
ignored by `snprintf` (the `dirty` parameter is therefore unused here,
exactly as in the C).  `%.20s` prints at most 20 characters of the name;
the buffer bounds the result at 79 characters. -/
def statusLeftC (filename : Option String) (numrows : Nat) (dirty : Nat) : List Char :=
  (((filename.getD "[No Name]").data.take 20 ++ " - ".data ++
      (Nat.repr numrows).data ++ " lines".data).take 79)

/-- The right status text: `snprintf(rstatus, 80, "%d/%d", E.cy + 1, E.numrows)`. -/
def statusRightC (cy numrows : Nat) : List Char :=
  (Nat.repr (cy + 1)).data ++ "/".data ++ (Nat.repr numrows).data

/-- The padding loop of editorDrawStatusBar, phrased on the remaining gap
`cols - len`: while the gap is positive, pad with a space (shrinking the
gap by one), except that when the gap equals `rlen` the right status is
emitted and the loop breaks. -/
def padGap : Nat → List Char → List Char
  | 0, _ => []
  | g + 1, rst => if g + 1 = rst.length then rst else ' ' :: padGap g rst

/-- The padding loop of editorDrawStatusBar: starting from the drawn
length `len`, pad with spaces while `len < screencols`, emitting the right
status when exactly its length remains. -/
def padLoop (cols : Nat) (rst : List Char) (len : Nat) : List Char :=
  padGap (cols - len) rst

/-- The text row produced by editorDrawStatusBar (the inverse-video escape
sequences around it are not modelled): the left status truncated to the
screen width, then the padding loop with the right status. -/
def editorDrawStatusBar (filename : Option String) (numrows dirty cy screencols : Nat) :
    List Char :=
  let st := (statusLeftC filename numrows dirty).take screencols
  st ++ padLoop screencols (statusRightC cy numrows) st.length

/-! ### Key dispatch (editorProcessKeypress) -/

/-- Result of one editorProcessKeypress call: a new state plus the value
of the static `quit_times` counter after the call, or process exit
(`exit(0)` on the quit path), or an out-of-range row access (C undefined
behaviour, never reached from well-formed states). -/
inductive StepResult
  | ok (s : EState) (qt : Nat)
  | exited
  | ub
deriving DecidableEq, Repr

/-- The quit warning message (its `%d` is the current `quit_times`). -/
def quitWarnMsg (qt : Nat) : String :=
  "WARNING!!! File has unsaved changes. Press Ctrl-q " ++ Nat.repr qt ++
    " more times to quit"

/-- editorProcessKeypress: the full `switch` on the decoded key `c`, with
the static `quit_times` counter passed in and returned explicitly.  On the
quit-combo with a dirty document and a positive counter the function warns,
decrements and returns early (skipping the reset at the bottom); every
other path that returns normally resets the counter to JATE_QUIT_TIMES.
The PAGE_UP/PAGE_DOWN case falls through into the arrow case
(`processPage` includes the extra editorMoveCursor call). -/
def editorProcessKeypress (env : SaveEnv) (s : EState) (qt : Nat) (c : Int) : StepResult :=
  if c = CARRIAGE_RETURN then
    match editorInsertNewline s with
    | some s2 => .ok s2 JATE_QUIT_TIMES
    | none => .ub
  else if c = CTRL_Q then
    if s.dirty ≠ 0 ∧ 0 < qt then .ok (setStatus s (quitWarnMsg qt)) (qt - 1)
    else .exited
  else if c = CTRL_S then .ok (editorSave s env).1 JATE_QUIT_TIMES
  else if c = HOME_KEY then .ok { s with cx := 0 } JATE_QUIT_TIMES
  else if c = END_KEY then
    .ok (match s.rows.get? s.cy with
         | some row => { s with cx := row.length }
         | none => s) JATE_QUIT_TIMES
  else if c = BACKSPACE ∨ c = CTRL_H ∨ c = DEL_KEY then
    match editorDelChar (if c = DEL_KEY then editorMoveCursor s ARROW_RIGHT else s) with
    | some s2 => .ok s2 JATE_QUIT_TIMES
    | none => .ub
  else if c = PAGE_UP ∨ c = PAGE_DOWN then .ok (processPage s c) JATE_QUIT_TIMES
  else if c = ARROW_UP ∨ c = ARROW_DOWN ∨ c = ARROW_LEFT ∨ c = ARROW_RIGHT then
    .ok (editorMoveCursor s c) JATE_QUIT_TIMES
  else if c = CTRL_L ∨ c = ESC then .ok s JATE_QUIT_TIMES
  else
    match editorInsertChar s c with
    | some s2 => .ok s2 JATE_QUIT_TIMES
    | none => .ub

/-- Iterated keypress processing (the main loop restricted to the
dispatcher), absorbing on exit and on undefined behaviour. -/
def runKeys (env : SaveEnv) (r : StepResult) : List Int → StepResult
  | [] => r
  | c :: cs =>
    match r with
    | .ok s qt => runKeys env (editorProcessKeypress env s qt c) cs
    | other => other

/-! ### List lemmas about the array-surgery helpers -/

lemma length_insertAt (x : α) : ∀ (n : Nat) (l : List α), n ≤ l.length →
    (insertAt n x l).length = l.length + 1
  | 0, l, _ => by simp [insertAt]
  | n + 1, [], h => by simp at h
  | n + 1, a :: l, h => by
    simp only [insertAt, List.length_cons]
    rw [length_insertAt x n l (by simpa using h)]

lemma insertAt_get?_self (x : α) : ∀ (n : Nat) (l : List α), n ≤ l.length →
    (insertAt n x l).get? n = some x
  | 0, l, _ => by simp [insertAt]
  | n + 1, [], h => by simp at h
  | n + 1, a :: l, h => by
    simp only [insertAt, List.get?_cons_succ]
    exact insertAt_get?_self x n l (by simpa using h)

lemma insertAt_get?_succ (x : α) : ∀ (n : Nat) (l : List α), n ≤ l.length →
    (insertAt n x l).get? (n + 1) = l.get? n
  | 0, l, _ => by simp [insertAt]
  | n + 1, [], h => by simp at h
  | n + 1, a :: l, h => by
    simp only [insertAt, List.get?_cons_succ]
    exact insertAt_get?_succ x n l (by simpa using h)

lemma insertAt_get?_lt (x : α) : ∀ (n m : Nat) (l : List α), m < n →
    (insertAt n x l).get? m = l.get? m
  | 0, m, l, h => by omega
  | n + 1, m, [], _ => by simp [insertAt]
  | n + 1, 0, a :: l, _ => by simp [insertAt]
  | n + 1, m + 1, a :: l, h => by
    simp only [insertAt, List.get?_cons_succ]
    exact insertAt_get?_lt x n m l (by omega)

lemma eraseAt_insertAt (x : α) : ∀ (n : Nat) (l : List α),
    eraseAt n (insertAt n x l) = l
  | 0, l => by simp [insertAt, eraseAt]
  | n + 1, [] => by simp [insertAt, eraseAt]
  | n + 1, a :: l => by
    simp only [insertAt, eraseAt, List.cons.injEq, true_and]
    exact eraseAt_insertAt x n l

lemma set_get?_self (a : α) : ∀ (n : Nat) (l : List α), n < l.length →
    (l.set n a).get? n = some a
  | 0, [], h => by simp at h
  | 0, b :: l, _ => by simp
  | n + 1, [], h => by simp at h
  | n + 1, b :: l, h => by
    simp only [List.set_cons_succ, List.get?_cons_succ]
    exact set_get?_self a n l (by simpa using h)

lemma set_get?_ne (a : α) : ∀ (n m : Nat) (l : List α), n ≠ m →
    (l.set n a).get? m = l.get? m
  | _, _, [], _ => by simp
  | 0, 0, b :: l, h => by omega
  | 0, m + 1, b :: l, _ => by simp
  | n + 1, 0, b :: l, _ => by simp
  | n + 1, m + 1, b :: l, h => by
    simp only [List.set_cons_succ, List.get?_cons_succ]
    exact set_get?_ne a n m l (by omega)

lemma set_get?_eq_self (a : α) : ∀ (n : Nat) (l : List α), l.get? n = some a →
    l.set n a = l
  | n, [], h => by simp at h
  | 0, b :: l, h => by simp_all
  | n + 1, b :: l, h => by
    simp only [List.set_cons_succ, List.cons.injEq, true_and]
    exact set_get?_eq_self a n l (by simpa using h)

lemma eraseAt_succ_set_insertAt (x a : α) : ∀ (n : Nat) (l : List α),
    l.get? n = some a →
    eraseAt (n + 1) ((insertAt n x l).set n a) = l
  | n, [], h => by simp at h
  | 0, b :: l, h => by
    simp only [List.get?_cons_zero, Option.some.injEq] at h
    simp [insertAt, eraseAt, h]
  | n + 1, b :: l, h => by
    simp only [insertAt, List.set_cons_succ, eraseAt, List.cons.injEq, true_and]
    exact eraseAt_succ_set_insertAt x a n l (by simpa using h)

/-! ### Lemmas about loading and serialization (for the round-trip claim) -/

lemma rowsToString_nil : rowsToString [] = [] := rfl

lemma rowsToString_cons (r : List Char) (rs : List (List Char)) :
    rowsToString (r :: rs) = r ++ '\n' :: rowsToString rs := by
  simp [rowsToString]

lemma endsWithNewline_concat (c : Char) : ∀ (xs : List Char),
    endsWithNewline (xs ++ [c]) = decide (c = '\n')
  | [] => rfl
  | [a] => rfl
  | a :: b :: xs => by
    have : endsWithNewline (a :: b :: (xs ++ [c])) = endsWithNewline (b :: (xs ++ [c])) := rfl
    simpa [this] using endsWithNewline_concat c (b :: xs)

lemma dropWhile_eol_of_all (l : List Char)
    (h : ∀ c ∈ l, (c = '\n' || c = '\r') = false) :
    (l.dropWhile fun c => c = '\n' || c = '\r') = l := by
  cases l with
  | nil => rfl
  | cons a t =>
    rw [List.dropWhile_cons, if_neg]
    simp [h a (by simp)]

lemma stripEol_of_all (l : List Char)
    (h : ∀ c ∈ l, (c = '\n' || c = '\r') = false) :
    stripEol l = l := by
  unfold stripEol
  rw [dropWhile_eol_of_all _ (fun c hc => h c (List.mem_reverse.mp hc)), List.reverse_reverse]

lemma stripEol_concat_newline (l : List Char)
    (h : ∀ c ∈ l, (c = '\n' || c = '\r') = false) :
    stripEol (l ++ ['\n']) = l := by
  unfold stripEol
  rw [List.reverse_append]
  show ((('\n' :: []) ++ l.reverse).dropWhile fun c => c = '\n' || c = '\r').reverse = l
  rw [List.cons_append, List.dropWhile_cons, if_pos (by simp), List.nil_append,
    dropWhile_eol_of_all _ (fun c hc => h c (List.mem_reverse.mp hc)), List.reverse_reverse]

lemma normalize_append_newline (xs rest : List Char) :
    trailingNewlineNormalize (xs ++ '\n' :: rest) =
      xs ++ '\n' :: trailingNewlineNormalize rest := by
  cases rest with
  | nil =>
    show trailingNewlineNormalize (xs ++ ['\n']) = xs ++ ['\n']
    unfold trailingNewlineNormalize
    rw [if_neg (by simp), if_pos (by simp [endsWithNewline_concat])]
  | cons r rs =>
    have hewn : endsWithNewline (xs ++ '\n' :: r :: rs) = endsWithNewline (r :: rs) := by
      have step : ∀ (ys : List Char), endsWithNewline (ys ++ '\n' :: r :: rs)
          = endsWithNewline ('\n' :: r :: rs) := by
        intro ys
        induction ys with
        | nil => rfl
        | cons a ys ih =>
          cases hys : ys ++ '\n' :: r :: rs with
          | nil => simp at hys
          | cons b t =>
            rw [List.cons_append, hys,
              show endsWithNewline (a :: b :: t) = endsWithNewline (b :: t) from rfl,
              ← hys, ih]
      rw [step xs]
      rfl
    have h1 : (xs ++ '\n' :: r :: rs).isEmpty = false := by simp
    simp only [trailingNewlineNormalize, h1, List.isEmpty_cons, Bool.false_eq_true, if_false,
      hewn]
    by_cases hn : endsWithNewline (r :: rs) = true
    · simp [hn]
    · simp [hn, List.append_assoc]

lemma openAux_serialize : ∀ (cs acc : List Char), '\r' ∉ cs →
    (∀ c ∈ acc, (c = '\n' || c = '\r') = false) →
    rowsToString ((getLinesAux cs acc).map stripEol) =
      trailingNewlineNormalize (acc.reverse ++ cs)
  | [], acc, _, hacc => by
    cases acc with
    | nil => rfl
    | cons a t =>
      have hrev : ∀ c ∈ (a :: t : List Char).reverse, (c = '\n' || c = '\r') = false :=
        fun c hc => hacc c (List.mem_reverse.mp hc)
      show rowsToString [stripEol (a :: t).reverse] = _
      rw [rowsToString_cons, rowsToString_nil,
        stripEol_of_all _ hrev]
      have : trailingNewlineNormalize ((a :: t).reverse ++ []) = (a :: t).reverse ++ ['\n'] := by
        unfold trailingNewlineNormalize
        rw [List.append_nil, if_neg (by simp), if_neg]
        rw [show (a :: t : List Char).reverse = t.reverse ++ [a] from by simp,
          endsWithNewline_concat]
        have := hacc a (by simp)
        simp at this
        simp [this]
      rw [List.append_nil] at this ⊢
      rw [this]
  | c :: cs, acc, hcs, hacc => by
    by_cases hn : c = '\n'
    · subst hn
      show rowsToString (((acc.reverse ++ ['\n']) :: getLinesAux cs []).map stripEol) = _
      rw [List.map_cons, rowsToString_cons,
        stripEol_concat_newline _ (fun x hx => hacc x (List.mem_reverse.mp hx)),
        openAux_serialize cs [] (fun hm => hcs (List.mem_cons_of_mem _ hm)) (by simp),
        List.reverse_nil, List.nil_append, normalize_append_newline]
    · have hr : ¬(c = '\r') := fun hh => hcs (hh ▸ List.mem_cons_self _ _)
      rw [show getLinesAux (c :: cs) acc = getLinesAux cs (c :: acc) from by
        simp only [getLinesAux]
        rw [if_neg hn]]
      rw [openAux_serialize cs (c :: acc) (fun hm => hcs (List.mem_cons_of_mem _ hm))
          (by
            intro x hx
            rcases List.mem_cons.mp hx with h1 | h2
            · subst h1; simp [hn, hr]
            · exact hacc x h2)]
      rw [List.reverse_cons, List.append_assoc]
      rfl

/-! ### Lemmas about the quit-confirmation logic -/

lemma quit_warn_step (env : SaveEnv) (s : EState) (qt : Nat)
    (hd : s.dirty ≠ 0) (hq : 0 < qt) :
    editorProcessKeypress env s qt CTRL_Q = .ok (setStatus s (quitWarnMsg qt)) (qt - 1) := by
  unfold editorProcessKeypress
  rw [if_neg (by decide : ¬(CTRL_Q = CARRIAGE_RETURN)), if_pos rfl, if_pos ⟨hd, hq⟩]

lemma quit_exit_step (env : SaveEnv) (s : EState) (qt : Nat)
    (h : ¬(s.dirty ≠ 0 ∧ 0 < qt)) :
    editorProcessKeypress env s qt CTRL_Q = .exited := by
  unfold editorProcessKeypress
  rw [if_neg (by decide : ¬(CTRL_Q = CARRIAGE_RETURN)), if_pos rfl, if_neg h]

lemma qt_reset_of_ne_quit (env : SaveEnv) (s : EState) (qt : Nat) (c : Int)
    (s2 : EState) (qt2 : Nat) (hc : c ≠ CTRL_Q)
    (h : editorProcessKeypress env s qt c = .ok s2 qt2) :
    qt2 = JATE_QUIT_TIMES := by
  unfold editorProcessKeypress at h
  split_ifs at h <;>
    first
      | exact absurd (by assumption : c = CTRL_Q) hc
      | (cases h; rfl)
      | simp at h
      | (split at h <;> first | (cases h; rfl) | simp at h)

/-! ### Lemmas about cursor clamping (for the PageUp/PageDown claim) -/

lemma clampCx_cx_le (t : EState) : (clampCx t).cx ≤ rowlenS (clampCx t) := by
  unfold clampCx
  split_ifs with h
  · simp [rowlenS]
  · omega

lemma moveCursor_cx_le (s : EState) (k : Int) :
    (editorMoveCursor s k).cx ≤ rowlenS (editorMoveCursor s k) := by
  unfold editorMoveCursor
  exact clampCx_cx_le _

lemma clampCx_of_le (t : EState) (h : t.cx ≤ rowlenS t) : clampCx t = t := by
  unfold clampCx
  rw [if_neg (by omega)]

lemma moveCursor_page_id (t : EState) (c : Int)
    (hk : c = PAGE_UP ∨ c = PAGE_DOWN) (h : t.cx ≤ rowlenS t) :
    editorMoveCursor t c = t := by
  have h1 : ¬(c = ARROW_LEFT) := by rcases hk with h | h <;> subst h <;> decide
  have h2 : ¬(c = ARROW_RIGHT) := by rcases hk with h | h <;> subst h <;> decide
  have h3 : ¬(c = ARROW_UP) := by rcases hk with h | h <;> subst h <;> decide
  have h4 : ¬(c = ARROW_DOWN) := by rcases hk with h | h <;> subst h <;> decide
  simp only [editorMoveCursor]
  rw [if_neg h1, if_neg h2, if_neg h3, if_neg h4]
  exact clampCx_of_le t h

lemma moveTimes_cx_le (k : Int) : ∀ (n : Nat) (s : EState), 1 ≤ n →
    (moveTimes k n s).cx ≤ rowlenS (moveTimes k n s)
  | 0, _, h => absurd h (by omega)
  | 1, s, _ => by simpa [moveTimes] using moveCursor_cx_le s k
  | n + 2, s, _ => by
    show (moveTimes k (n + 1) (editorMoveCursor s k)).cx ≤ _
    exact moveTimes_cx_le k (n + 1) _ (by omega)

/-! ### Claim C1 — editorPrompt key handling (code bug) -/

/-- Claim C1 (code bug): in editorPrompt's input loop the escape test is
inverted (`else if (c != '\x1b')` where the kilo original reads
`if (c == '\x1b')`), so, contrary to the claim: a printable key (here
`'a'` = 97) CANCELS the prompt instead of appending; CarriageReturn with
a non-empty buffer CANCELS instead of committing; a bare Escape is
swallowed (the loop keeps running) instead of cancelling.  Only the
Backspace/Delete behaviour matches the claim. -/
theorem prompt_loop_branches_inverted :
    promptStep ['h', 'i'] 97 = .cancel ∧
    promptStep ['h', 'i'] CARRIAGE_RETURN = .cancel ∧
    promptStep ['h', 'i'] ESC = .keep ['h', 'i'] ∧
    promptStep ['h', 'i'] BACKSPACE = .keep ['h'] := by
  decide

/-! ### Claim C2 — quit confirmation count (corrected) -/

/-- Claim C2, counterexample: with a dirty document and the
quit-confirmation counter at its initial value JATE_QUIT_TIMES = 3, three
consecutive quit-combo presses do NOT terminate the editor (each one only
warns and decrements), while a fourth consecutive press does.  The claim's
"exactly 3 consecutive quit-combo presses" is therefore false on the code. -/
theorem quit_three_presses_do_not_exit :
    runKeys ⟨none, false, false, false⟩
        (.ok ⟨[['a']], 0, 0, 0, 0, 10, 40, 1, none, ""⟩ JATE_QUIT_TIMES)
        [CTRL_Q, CTRL_Q, CTRL_Q] ≠ .exited ∧
    runKeys ⟨none, false, false, false⟩
        (.ok ⟨[['a']], 0, 0, 0, 0, 10, 40, 1, none, ""⟩ JATE_QUIT_TIMES)
        [CTRL_Q, CTRL_Q, CTRL_Q, CTRL_Q] = .exited := by
  constructor
  · intro h
    exact absurd h (by decide)
  · decide

/-- Claim C2, amended: with a dirty document, the editor never exits while
the counter is positive — each such quit-combo press only warns and
decrements — the quit-combo exits once the counter reaches 0, so from the
initial counter (3) exactly 4 consecutive quit-combo presses terminate the
editor (3 warnings, then exit); and any key other than the quit combo
resets the counter to JATE_QUIT_TIMES = 3. -/
theorem quit_requires_four_consecutive_presses (env : SaveEnv) (s : EState)
    (hd : s.dirty ≠ 0) :
    (∀ qt, 0 < qt →
        editorProcessKeypress env s qt CTRL_Q = .ok (setStatus s (quitWarnMsg qt)) (qt - 1)) ∧
    editorProcessKeypress env s 0 CTRL_Q = .exited ∧
    runKeys env (.ok s JATE_QUIT_TIMES) [CTRL_Q, CTRL_Q, CTRL_Q, CTRL_Q] = .exited ∧
    (∀ c, c ≠ CTRL_Q → ∀ qt s2 qt2,
        editorProcessKeypress env s qt c = .ok s2 qt2 → qt2 = JATE_QUIT_TIMES) := by
  refine ⟨fun qt hq => quit_warn_step env s qt hd hq,
    quit_exit_step env s 0 (fun hh => by omega),
    ?_,
    fun c hc qt s2 qt2 h => qt_reset_of_ne_quit env s qt c s2 qt2 hc h⟩
  have e1 := quit_warn_step env s 3 hd (by omega)
  have e2 := quit_warn_step env (setStatus s (quitWarnMsg 3)) 2 hd (by omega)
  have e3 := quit_warn_step env (setStatus (setStatus s (quitWarnMsg 3)) (quitWarnMsg 2)) 1 hd
    (by omega)
  have e4 := quit_exit_step env
    (setStatus (setStatus (setStatus s (quitWarnMsg 3)) (quitWarnMsg 2)) (quitWarnMsg 1)) 0
    (fun hh => by omega)
  show runKeys env (.ok s 3) [CTRL_Q, CTRL_Q, CTRL_Q, CTRL_Q] = .exited
  simp only [runKeys, e1, e2, e3, e4]

/-- Witness for the amended claim C2 at a concrete dirty state. -/
theorem quit_requires_four_consecutive_presses_witness :
    (⟨[['a']], 0, 0, 0, 0, 10, 40, 2, none, ""⟩ : EState).dirty ≠ 0 ∧
    runKeys ⟨none, true, true, true⟩
        (.ok ⟨[['a']], 0, 0, 0, 0, 10, 40, 2, none, ""⟩ JATE_QUIT_TIMES)
        [CTRL_Q, CTRL_Q, CTRL_Q, CTRL_Q] = .exited :=
  ⟨by decide,
    (quit_requires_four_consecutive_presses ⟨none, true, true, true⟩
      ⟨[['a']], 0, 0, 0, 0, 10, 40, 2, none, ""⟩ (by decide)).2.2.1⟩

/-! ### Claim C4 — load/serialize round-trip (corrected) -/

/-- Claim C4, counterexample: editorOpen's end-of-line stripping removes
carriage returns before the newline as well, so the file content
`"a\r\n"` loads as the single row `"a"` and serializes back as `"a\n"`,
while trailing-newline normalization leaves `"a\r\n"` unchanged.  The
round trip is therefore NOT the identity up to trailing-newline
normalization on all inputs. -/
theorem open_serialize_roundtrip_fails_on_cr :
    rowsToString (editorOpenRows ['a', '\r', '\n']) ≠
      trailingNewlineNormalize ['a', '\r', '\n'] := by
  decide

/-- Claim C4, amended: for every file content containing no carriage
return, loading (editorOpen's per-line insertion with end-of-line
stripping) and immediately serializing (editorRowsToString) reproduces
the original byte content up to trailing-newline normalization; in
particular a file whose last line lacks a final newline serializes with a
newline appended after every line including the last. -/
theorem open_serialize_roundtrip_no_cr (content : List Char) (h : '\r' ∉ content) :
    rowsToString (editorOpenRows content) = trailingNewlineNormalize content := by
  unfold editorOpenRows
  simpa using openAux_serialize content [] h (by simp)

/-- Witness for the amended claim C4 on a concrete two-line file whose
last line has no final newline. -/
theorem open_serialize_roundtrip_no_cr_witness :
    '\r' ∉ ['a', 'b', '\n', 'c', 'd'] ∧
    rowsToString (editorOpenRows ['a', 'b', '\n', 'c', 'd']) =
      trailingNewlineNormalize ['a', 'b', '\n', 'c', 'd'] :=
  ⟨by decide, open_serialize_roundtrip_no_cr ['a', 'b', '\n', 'c', 'd'] (by decide)⟩

/-! ### Claim C6 — tab rendering and the uninitialized tab counter (code bug) -/

/-- Claim C6 (code bug): editorUpdateRow declares `int tabs;` and counts
`tabs++` without ever initialising it, so the `malloc` size
`row->size + tabs*(JATE_TABSTOP-1) + 1` is computed from an indeterminate
initial value.  For the one-character row `"\t"` and garbage initial
value -1 the allocation is 2 bytes while the expansion loop writes 8
rendered characters plus a terminator (9 bytes): the rendered form of a
line is then not the claimed well-defined pure function of its content —
the write runs out of the allocated buffer.  (With the intended
initialisation 0 the allocation, 9 bytes, would suffice.) -/
theorem update_row_malloc_from_uninitialized_tabs :
    renderMallocSize ['\t'] (-1) = 2 ∧
    (renderRow ['\t']).length = 8 ∧
    renderMallocSize ['\t'] (-1) < ((renderRow ['\t']).length : Int) + 1 ∧
    renderMallocSize ['\t'] 0 = 9 := by
  decide

/-! ### Claim C7 — insertRow/deleteRow bounds checks (code bug) -/

/-- Claim C7 (code bug): editorDelRow bounds-checks `at < 0 || at > E.numrows`
(`>` instead of `>=`), so `at == numrows` passes the check, after which
`editorFreeRow(&E.row[at])` reads one past the end of the row array
(modelled as `none`).  On the one-row document below, `deleteRow 1` is
accepted by the check and performs the out-of-range access, refuting the
claim that every accepted `at` touches only valid line indices; values
outside `[0, numrows]` are indeed no-ops for both operations. -/
theorem del_row_accepts_at_numrows_and_reads_out_of_range :
    editorDelRowS ⟨[['a']], 0, 0, 0, 0, 10, 40, 0, none, ""⟩ 1 = none ∧
    editorDelRowS ⟨[['a']], 0, 0, 0, 0, 10, 40, 0, none, ""⟩ 2 =
      some ⟨[['a']], 0, 0, 0, 0, 10, 40, 0, none, ""⟩ ∧
    editorDelRowS ⟨[['a']], 0, 0, 0, 0, 10, 40, 0, none, ""⟩ (-1) =
      some ⟨[['a']], 0, 0, 0, 0, 10, 40, 0, none, ""⟩ ∧
    editorInsertRowS ⟨[['a']], 0, 0, 0, 0, 10, 40, 0, none, ""⟩ 2 ['b'] =
      ⟨[['a']], 0, 0, 0, 0, 10, 40, 0, none, ""⟩ := by
  decide

/-! ### Claim C8 — status bar modified marker (code bug) -/

/-- Claim C8 (code bug): the status-bar `snprintf` format is
`"%.20s - %d lines"` — it has no conversion for the third argument
`E.dirty ? "(modified)" : ""`, which `snprintf` evaluates and ignores.
The modified marker therefore never appears: on a dirty one-line document
the bar shows only the filename and line count (left) and the
current/total indicator (right), and the bar is identical for dirty and
clean states. -/
theorem status_bar_modified_marker_never_shown :
    editorDrawStatusBar (some "a.txt") 1 1 0 26 =
      ("a.txt - 1 lines        1/1").data ∧
    editorDrawStatusBar (some "a.txt") 1 1 0 26 =
      editorDrawStatusBar (some "a.txt") 1 0 0 26 := by
  decide

/-! ### Claim C9 — PageUp/PageDown fall-through (corrected) -/

/-- Claim C9, counterexample: the PAGE_UP/PAGE_DOWN case does fall through
into the arrow-key case (processPage ends with the extra
`editorMoveCursor` call on the page key itself), but on this concrete
state the result — cursor position included — is identical to the
viewport relocation plus `screenrows` vertical moves alone
(pageJumpSpec): the claimed "resulting cursor position differs" is false. -/
theorem page_down_no_extra_move_at_example :
    processPage ⟨[['a'], ['b', 'c']], 0, 0, 0, 0, 1, 40, 0, none, ""⟩ PAGE_DOWN =
      pageJumpSpec ⟨[['a'], ['b', 'c']], 0, 0, 0, 0, 1, 40, 0, none, ""⟩ PAGE_DOWN := by
  decide

/-- Claim C9, amended: PageUp/PageDown processing does fall through into
the arrow-key case, invoking one extra `editorMoveCursor` call with the
PAGE_UP/PAGE_DOWN code — but `editorMoveCursor` matches no `switch` case
for those codes and only re-applies the end-of-line clamp, which the
preceding `screenrows` vertical moves already established; so whenever
`screenrows ≥ 1` the resulting state (cursor position included) equals
what the viewport relocation plus the repeated vertical moves alone
produce. -/
theorem page_key_fallthrough_is_noop (s : EState) (c : Int)
    (hc : c = PAGE_UP ∨ c = PAGE_DOWN) (hs : 1 ≤ s.screenrows) :
    processPage s c = pageJumpSpec s c := by
  unfold processPage pageJumpSpec
  apply moveCursor_page_id _ c hc
  exact moveTimes_cx_le _ s.screenrows _ hs

/-- Witness for the amended claim C9 at a concrete state with two screen
rows. -/
theorem page_key_fallthrough_is_noop_witness :
    ((PAGE_UP = PAGE_UP ∨ PAGE_UP = PAGE_DOWN) ∧
      1 ≤ (⟨[['x', 'y'], ['z']], 2, 0, 0, 0, 2, 40, 0, none, ""⟩ : EState).screenrows) ∧
    processPage ⟨[['x', 'y'], ['z']], 2, 0, 0, 0, 2, 40, 0, none, ""⟩ PAGE_UP =
      pageJumpSpec ⟨[['x', 'y'], ['z']], 2, 0, 0, 0, 2, 40, 0, none, ""⟩ PAGE_UP :=
  ⟨⟨Or.inl rfl, by decide⟩,
    page_key_fallthrough_is_noop ⟨[['x', 'y'], ['z']], 2, 0, 0, 0, 2, 40, 0, none, ""⟩
      PAGE_UP (Or.inl rfl) (by decide)⟩

/-! ### Claim C3 — failed save leaves the Document unchanged (confirmed) -/

/-- Claim C3: whenever editorSave does not succeed — the Save-As prompt
was cancelled, or the open/truncate/write step failed — the in-memory
Document is left unchanged: row contents (hence the line count) and the
dirty counter keep their pre-save values, as do the cursor coordinates;
only the status message (and, when the prompt succeeded before an I/O
failure, the newly bound filename) is set.  The C function contains no
fatal-error path: it always returns to its caller, which the totality of
the model mirrors. -/
theorem save_failure_preserves_document (s : EState) (env : SaveEnv)
    (h : (editorSave s env).2 = false) :
    (editorSave s env).1.rows = s.rows ∧
    (editorSave s env).1.dirty = s.dirty ∧
    (editorSave s env).1.cx = s.cx ∧
    (editorSave s env).1.cy = s.cy := by
  cases hf : s.filename <;> cases hp : env.promptResult <;> cases ho : env.openOk <;>
    cases ht : env.truncOk <;> cases hw : env.writeOk <;>
    simp_all [editorSave, editorSaveGo, setStatus]

/-- Witness for claim C3: a failing save (open fails) on a concrete dirty
document. -/
theorem save_failure_preserves_document_witness :
    (editorSave ⟨[['h', 'i']], 1, 0, 0, 0, 10, 40, 5, some "t.txt", ""⟩
        ⟨none, false, true, true⟩).2 = false ∧
    ((editorSave ⟨[['h', 'i']], 1, 0, 0, 0, 10, 40, 5, some "t.txt", ""⟩
        ⟨none, false, true, true⟩).1.rows = [['h', 'i']] ∧
      (editorSave ⟨[['h', 'i']], 1, 0, 0, 0, 10, 40, 5, some "t.txt", ""⟩
        ⟨none, false, true, true⟩).1.dirty = 5) :=
  ⟨by decide,
    ⟨(save_failure_preserves_document ⟨[['h', 'i']], 1, 0, 0, 0, 10, 40, 5, some "t.txt", ""⟩
        ⟨none, false, true, true⟩ (by decide)).1,
      (save_failure_preserves_document ⟨[['h', 'i']], 1, 0, 0, 0, 10, 40, 5, some "t.txt", ""⟩
        ⟨none, false, true, true⟩ (by decide)).2.1⟩⟩

/-! ### Claim C5 — insertNewline/deleteChar inverse (confirmed) -/

/-- Claim C5: for every state whose cursor row exists (`cy < numrows`) and
whose column is within the line (`cx ≤ length`), performing
editorInsertNewline and then editorDelChar (at the resulting cursor
`(cy + 1, 0)`) restores the original content of line `cy` exactly and
returns the line count to its original value (indeed the whole row list,
cursor position included, is restored; only `dirty` has grown by 3). -/
theorem newline_then_delete_restores (s : EState)
    (hr : s.cy < s.rows.length)
    (hc : s.cx ≤ ((s.rows.get? s.cy).getD []).length) :
    ∃ t, (editorInsertNewline s).bind editorDelChar = some t ∧
      t.rows.get? s.cy = s.rows.get? s.cy ∧ t.rows.length = s.rows.length := by
  obtain ⟨row, hrow⟩ : ∃ r, s.rows.get? s.cy = some r := by
    cases h : s.rows.get? s.cy with
    | none => rw [List.get?_eq_none] at h; omega
    | some r => exact ⟨r, rfl⟩
  rw [hrow] at hc
  simp only [Option.getD_some] at hc
  have hble : s.cy ≤ s.rows.length := le_of_lt hr
  refine ⟨{ s with dirty := s.dirty + 3 }, ?_, rfl, rfl⟩
  by_cases h0 : s.cx = 0
  · -- column 0: an empty row is inserted before cy, then joined back
    have hlen1 : (insertAt s.cy ([] : List Char) s.rows).length = s.rows.length + 1 :=
      length_insertAt _ _ _ hble
    have hins : editorInsertNewline s =
        some { s with rows := insertAt s.cy [] s.rows, cx := 0, cy := s.cy + 1, dirty := s.dirty + 1 } := by
      unfold editorInsertNewline editorInsertRowS
      rw [if_pos h0, if_neg (by omega)]
      simp
    have hget1 : (insertAt s.cy ([] : List Char) s.rows).get? (s.cy + 1) = some row := by
      rw [insertAt_get?_succ _ _ _ hble, hrow]
    have hget0 : (insertAt s.cy ([] : List Char) s.rows).get? s.cy = some [] :=
      insertAt_get?_self _ _ _ hble
    have hset1 : ((insertAt s.cy ([] : List Char) s.rows).set s.cy row).get? (s.cy + 1)
        = some row := by
      rw [set_get?_ne _ _ _ _ (by omega), hget1]
    have herase : eraseAt (s.cy + 1) ((insertAt s.cy ([] : List Char) s.rows).set s.cy row)
        = s.rows :=
      eraseAt_succ_set_insertAt _ _ _ _ hrow
    have hne1 : ¬(s.cy + 1 = s.rows.length + 1) := by omega
    have hb2 : ¬(((s.cy + 1 : Nat) : Int) < 0 ∨
        ((s.cy + 1 : Nat) : Int) > ((s.rows.length + 1 : Nat) : Int)) := by omega
    rw [hins]
    simp only [Option.some_bind, editorDelChar, editorDelRowS, hlen1, hne1, hget1, hget0,
      hset1, herase, hb2, List.nil_append, List.length_set, Nat.add_sub_cancel, h0,
      if_false, if_true, Int.toNat_natCast, Option.map_some, lt_irrefl, and_false,
      false_and, ite_false, gt_iff_lt, Nat.succ_ne_zero, and_false]
    simp [h0]
  · -- column > 0: the line is split at cx, then joined back
    have hble2 : s.cy + 1 ≤ s.rows.length := by omega
    have hlen1 : (insertAt (s.cy + 1) (row.drop s.cx) s.rows).length = s.rows.length + 1 :=
      length_insertAt _ _ _ hble2
    have hcast : ((s.cy : Int) + 1).toNat = s.cy + 1 := by omega
    have hins : editorInsertNewline s =
        some { s with rows := (insertAt (s.cy + 1) (row.drop s.cx) s.rows).set s.cy (row.take s.cx), cx := 0, cy := s.cy + 1, dirty := s.dirty + 1 } := by
      have hcond : ¬((s.cy : Int) + 1 < 0 ∨ (s.cy : Int) + 1 > (s.rows.length : Int)) := by
        omega
      unfold editorInsertNewline editorInsertRowS
      rw [if_neg h0, hrow]
      simp [hcond, hcast]
    have hgetcur : ((insertAt (s.cy + 1) (row.drop s.cx) s.rows).set s.cy (row.take s.cx)).get?
        (s.cy + 1) = some (row.drop s.cx) := by
      rw [set_get?_ne _ _ _ _ (by omega), insertAt_get?_self _ _ _ hble2]
    have hgetprev : ((insertAt (s.cy + 1) (row.drop s.cx) s.rows).set s.cy (row.take s.cx)).get?
        s.cy = some (row.take s.cx) :=
      set_get?_self _ _ _ (by omega)
    have hjoin : (((insertAt (s.cy + 1) (row.drop s.cx) s.rows).set s.cy (row.take s.cx)).set
        s.cy (row.take s.cx ++ row.drop s.cx)) = insertAt (s.cy + 1) (row.drop s.cx) s.rows := by
      rw [List.take_append_drop, List.set_set]
      exact set_get?_eq_self _ _ _ (by rw [insertAt_get?_lt _ _ _ _ (by omega), hrow])
    have hgetjoin : (insertAt (s.cy + 1) (row.drop s.cx) s.rows).get? (s.cy + 1)
        = some (row.drop s.cx) := insertAt_get?_self _ _ _ hble2
    have herase : eraseAt (s.cy + 1) (insertAt (s.cy + 1) (row.drop s.cx) s.rows) = s.rows :=
      eraseAt_insertAt _ _ _
    have htake : (row.take s.cx).length = s.cx := by
      rw [List.length_take]
      omega
    have hne1 : ¬(s.cy + 1 = s.rows.length + 1) := by omega
    have hb2 : ¬(((s.cy + 1 : Nat) : Int) < 0 ∨
        ((s.cy + 1 : Nat) : Int) > ((s.rows.length + 1 : Nat) : Int)) := by omega
    rw [hins]
    simp only [Option.some_bind, editorDelChar, editorDelRowS, List.length_set, hlen1, hne1,
      hgetcur, hgetprev, hjoin, hgetjoin, herase, htake, hb2, List.nil_append,
      Nat.add_sub_cancel, if_false, if_true, Int.toNat_natCast, Option.map_some, lt_irrefl,
      and_false, false_and, ite_false, gt_iff_lt, Nat.succ_ne_zero]
    simp [h0]

/-- Witness for claim C5: splitting `"abc"` at column 2 and deleting at
the start of the next line restores the document. -/
theorem newline_then_delete_restores_witness :
    (⟨[['a', 'b', 'c']], 2, 0, 0, 0, 10, 40, 0, none, ""⟩ : EState).cy <
      (⟨[['a', 'b', 'c']], 2, 0, 0, 0, 10, 40, 0, none, ""⟩ : EState).rows.length ∧
    ∃ t, (editorInsertNewline ⟨[['a', 'b', 'c']], 2, 0, 0, 0, 10, 40, 0, none, ""⟩).bind
        editorDelChar = some t ∧
      t.rows.get? (⟨[['a', 'b', 'c']], 2, 0, 0, 0, 10, 40, 0, none, ""⟩ : EState).cy =
        (⟨[['a', 'b', 'c']], 2, 0, 0, 0, 10, 40, 0, none, ""⟩ : EState).rows.get?
          (⟨[['a', 'b', 'c']], 2, 0, 0, 0, 10, 40, 0, none, ""⟩ : EState).cy ∧
      t.rows.length =
        (⟨[['a', 'b', 'c']], 2, 0, 0, 0, 10, 40, 0, none, ""⟩ : EState).rows.length :=
  ⟨by decide,
    newline_then_delete_restores ⟨[['a', 'b', 'c']], 2, 0, 0, 0, 10, 40, 0, none, ""⟩
      (by decide) (by decide)⟩

/-! ### Claim C10 — unmatched keys are inserted verbatim (confirmed) -/

/-- Claim C10: any decoded key byte (`0 ≤ c < 256`) matching none of the
dispatch-table cases — not CarriageReturn, the quit/save combos, Ctrl-H,
the no-op keys Ctrl-L and Escape, nor Backspace (the `editorKey` enum
values all lie at 1000+, excluded by `c < 256`) — reaches the `default`
case and is inserted verbatim at the cursor by editorInsertChar: the
cursor row gains exactly that character at column `cx` via
editorRowInsertChar, the cursor advances one column, and the dirty
counter strictly increases.  This covers unrecognized control bytes such
as Ctrl-A (0x01). -/
theorem unmatched_key_inserts_char (env : SaveEnv) (s : EState) (qt : Nat) (c : Int)
    (hc0 : 0 ≤ c) (hc1 : c < 256)
    (h13 : c ≠ CARRIAGE_RETURN) (h17 : c ≠ CTRL_Q) (h19 : c ≠ CTRL_S)
    (h8 : c ≠ CTRL_H) (h12 : c ≠ CTRL_L) (h27 : c ≠ ESC) (h127 : c ≠ BACKSPACE)
    (hcy : s.cy ≤ s.rows.length) :
    ∃ t, editorProcessKeypress env s qt c = .ok t JATE_QUIT_TIMES ∧
      t.rows.get? s.cy =
        some (editorRowInsertChar ((s.rows.get? s.cy).getD []) s.cx (Char.ofNat c.toNat)) ∧
      t.cx = s.cx + 1 ∧
      s.dirty < t.dirty := by
  have hmod : c % 256 = c := Int.emod_eq_of_lt hc0 hc1
  have hHome : ¬(c = HOME_KEY) := by unfold HOME_KEY; omega
  have hEnd : ¬(c = END_KEY) := by unfold END_KEY; omega
  have hBack : ¬(c = BACKSPACE ∨ c = CTRL_H ∨ c = DEL_KEY) := by
    rintro (h | h | h)
    · exact h127 h
    · exact h8 h
    · revert h; unfold DEL_KEY; omega
  have hPage : ¬(c = PAGE_UP ∨ c = PAGE_DOWN) := by
    rintro (h | h) <;> revert h
    · unfold PAGE_UP; omega
    · unfold PAGE_DOWN; omega
  have hArrow : ¬(c = ARROW_UP ∨ c = ARROW_DOWN ∨ c = ARROW_LEFT ∨ c = ARROW_RIGHT) := by
    rintro (h | h | h | h) <;> revert h
    · unfold ARROW_UP; omega
    · unfold ARROW_DOWN; omega
    · unfold ARROW_LEFT; omega
    · unfold ARROW_RIGHT; omega
  have hLEsc : ¬(c = CTRL_L ∨ c = ESC) := by
    rintro (h | h)
    · exact h12 h
    · exact h27 h
  unfold editorProcessKeypress
  rw [if_neg h13, if_neg h17, if_neg h19, if_neg hHome, if_neg hEnd, if_neg hBack,
    if_neg hPage, if_neg hArrow, if_neg hLEsc]
  by_cases hcyl : s.cy = s.rows.length
  · -- typing on the virtual line past the end: a fresh empty row is appended first
    have hlen1 : (insertAt s.rows.length ([] : List Char) s.rows).length = s.rows.length + 1 :=
      length_insertAt _ _ _ le_rfl
    have hget0 : (insertAt s.rows.length ([] : List Char) s.rows).get? s.rows.length
        = some [] := insertAt_get?_self _ _ _ le_rfl
    have hnone : s.rows.get? s.cy = none := by
      rw [List.get?_eq_none]
      omega
    have hbound : ¬((s.rows.length : Int) < 0 ∨ (s.rows.length : Int) > (s.rows.length : Int)) := by
      omega
    have hchar : editorInsertChar s c =
        some { s with
                rows := (insertAt s.rows.length [] s.rows).set s.rows.length
                  (editorRowInsertChar [] s.cx (Char.ofNat c.toNat)),
                cx := s.cx + 1, dirty := s.dirty + 2 } := by
      have hget0e := hget0
      simp only [List.get?_eq_getElem?] at hget0e
      unfold editorInsertChar editorInsertRowS
      rw [if_pos hcyl, if_neg hbound]
      simp [hcyl, hget0e, hmod]
    refine ⟨_, by rw [hchar], ?_, rfl, Nat.lt_succ_of_lt (Nat.lt_succ_self _)⟩
    show ((insertAt s.rows.length ([] : List Char) s.rows).set s.rows.length
        (editorRowInsertChar [] s.cx (Char.ofNat c.toNat))).get? s.cy = _
    rw [hnone, hcyl, set_get?_self _ _ _ (by omega)]
    rfl
  · -- cursor on an existing row
    obtain ⟨row, hrow⟩ : ∃ r, s.rows.get? s.cy = some r := by
      cases h : s.rows.get? s.cy with
      | none => rw [List.get?_eq_none] at h; omega
      | some r => exact ⟨r, rfl⟩
    have hchar : editorInsertChar s c =
        some { s with
                rows := s.rows.set s.cy (editorRowInsertChar row s.cx (Char.ofNat c.toNat)),
                cx := s.cx + 1, dirty := s.dirty + 1 } := by
      have hrowe := hrow
      simp only [List.get?_eq_getElem?] at hrowe
      unfold editorInsertChar
      rw [if_neg hcyl]
      simp [hrowe, hmod]
    have hlt : s.cy < s.rows.length := by omega
    refine ⟨_, by rw [hchar], ?_, rfl, Nat.lt_succ_self _⟩
    show (s.rows.set s.cy (editorRowInsertChar row s.cx (Char.ofNat c.toNat))).get? s.cy = _
    rw [hrow, set_get?_self _ _ _ hlt]
    rfl

/-- Witness for claim C10: the unrecognized control byte Ctrl-A (0x01) is
inserted verbatim into the row at the cursor. -/
theorem unmatched_key_inserts_char_witness :
    ((0 : Int) ≤ 1 ∧ (1 : Int) < 256) ∧
    ∃ t, editorProcessKeypress ⟨none, true, true, true⟩
        ⟨[['a', 'b']], 1, 0, 0, 0, 10, 40, 0, none, ""⟩ 3 1 = .ok t JATE_QUIT_TIMES ∧
      t.rows.get? (⟨[['a', 'b']], 1, 0, 0, 0, 10, 40, 0, none, ""⟩ : EState).cy =
        some (editorRowInsertChar
          (((⟨[['a', 'b']], 1, 0, 0, 0, 10, 40, 0, none, ""⟩ : EState).rows.get?
            (⟨[['a', 'b']], 1, 0, 0, 0, 10, 40, 0, none, ""⟩ : EState).cy).getD [])
          (⟨[['a', 'b']], 1, 0, 0, 0, 10, 40, 0, none, ""⟩ : EState).cx
          (Char.ofNat (1 : Int).toNat)) ∧
      t.cx = (⟨[['a', 'b']], 1, 0, 0, 0, 10, 40, 0, none, ""⟩ : EState).cx + 1 ∧
      (⟨[['a', 'b']], 1, 0, 0, 0, 10, 40, 0, none, ""⟩ : EState).dirty < t.dirty :=
  ⟨⟨by decide, by decide⟩,
    unmatched_key_inserts_char ⟨none, true, true, true⟩
      ⟨[['a', 'b']], 1, 0, 0, 0, 10, 40, 0, none, ""⟩ 3 1 (by decide) (by decide)
      (by decide) (by decide) (by decide) (by decide) (by decide) (by decide) (by decide)
      (by decide)⟩

/-! ### Supporting lemmas: the rendering loop and editorRowCxToRx agree -/

lemma cxToRxAux_eq_render_length (cs : List Char) : ∀ idx : Nat,
    cxToRxAux cs idx = idx + (renderRowAux cs idx).length := by
  induction cs with
  | nil => intro idx; simp [cxToRxAux, renderRowAux]
  | cons c cs ih =>
    intro idx
    by_cases hc : c = '\t'
    · simp only [cxToRxAux, renderRowAux, if_pos hc, List.length_append,
        List.length_replicate, ih]
      have hm : idx % JATE_TABSTOP < 8 := by
        have : idx % JATE_TABSTOP < JATE_TABSTOP := Nat.mod_lt _ (by decide)
        simpa [JATE_TABSTOP] using this
      rw [show idx + (JATE_TABSTOP - 1 - idx % JATE_TABSTOP) + 1
          = idx + (JATE_TABSTOP - idx % JATE_TABSTOP) from by
        unfold JATE_TABSTOP at *
        omega]
      omega
    · simp only [cxToRxAux, renderRowAux, if_neg hc, List.length_cons, ih]
      omega

/-- editorRowCxToRx is consistent with the tab expansion performed by
editorUpdateRow's write loop: the rendered column of character index `cx`
equals the rendered length of the first `cx` characters. -/
lemma editorRowCxToRx_consistent (row : List Char) (cx : Nat) :
    editorRowCxToRx row cx = (renderRow (row.take cx)).length := by
  unfold editorRowCxToRx renderRow
  rw [cxToRxAux_eq_render_length]
  omega

/-- Non-tab characters are rendered 1:1 and a row without tabs renders to
itself. -/
lemma renderRow_no_tabs (row : List Char) (h : ∀ ch ∈ row, ch ≠ '\t') :
    renderRow row = row := by
  unfold renderRow
  suffices hgen : ∀ idx, renderRowAux row idx = row by exact hgen 0
  induction row with
  | nil => intro idx; rfl
  | cons c cs ih =>
    intro idx
    rw [show renderRowAux (c :: cs) idx
        = if c = '\t' then List.replicate (JATE_TABSTOP - idx % JATE_TABSTOP) ' ' ++
            renderRowAux cs (idx + (JATE_TABSTOP - idx % JATE_TABSTOP))
          else c :: renderRowAux cs (idx + 1) from rfl,
      if_neg (h c (by simp)), ih (fun ch hm => h ch (by simp [hm]))]
